import Mathlib

/-!
Verification of the GeoTrace movement-intelligence pipeline.

Shallow embedding of the core analysis code:
  - member3/member3_movement.py : timestamp parsing, speed classification,
    movement segmentation, dwell-time analysis, corridors, summary statistics;
  - member2/cluster.py          : clustering stage (input filtering, cluster
    id attachment, cluster summary); the DBSCAN call itself is an external
    library call and is kept abstract (a parameter producing labels);
  - member4/member4_dashboard.py : compute_exposure.

Machine reals (Python floats) are modelled as rationals; datetimes used for
ordering and arithmetic are modelled as integer seconds.  The haversine
distance (a transcendental function of the coordinates) is kept abstract as
a distance-function parameter; no claim below depends on its values.
-/

namespace GeoTrace

/-- Python `round(x, n)`: round to `n` decimal digits, ties to even
(banker's rounding), modelled exactly on rationals. -/
def roundHalfEven (x : ℚ) : ℤ :=
  let f := ⌊x⌋
  let r := x - (f : ℚ)
  if r < 1/2 then f
  else if 1/2 < r then f + 1
  else if f % 2 = 0 then f else f + 1

/-- Python `round(x, ndigits)` on a rational. -/
def pyRound (ndigits : ℕ) (x : ℚ) : ℚ :=
  ((roundHalfEven (x * (10 : ℚ) ^ ndigits) : ℚ)) / (10 : ℚ) ^ ndigits

/-! ## Member 4: exposure scoring (member4_dashboard.py, compute_exposure)

A dashboard point is represented by its `cluster_id` value
(`p.get("cluster_id", -1)`: a missing key yields `-1`); `compute_exposure`
reads nothing else from a point besides the length of the list.  The
`summary` dict enters only through `int(summary.get("anomalies_detected", 0))`,
modelled as the integer argument `anomalies`. -/

structure Exposure where
  score_10 : ℤ
  label : String
  explanation : String
  bar_pct : ℤ
deriving DecidableEq

/-- Accumulated score before the cap: `score = 3`, then the four `+=` bonus
steps of member4_dashboard.py lines 138-146. -/
def exposureScore0 (points : List ℤ) (anomalies : ℤ) : ℤ :=
  3 + (if 10 ≤ points.length then 2 else 0)
    + (if 2 ≤ (points.filter (fun c => c ≠ -1)).dedup.length then 2 else 0)
    + (if 3 ≤ (points.filter (fun c => c ≠ -1)).dedup.length then 1 else 0)
    + (if anomalies = 0 then 1 else 0)

/-- Final `Exposure` record from the capped score
(member4_dashboard.py lines 150-154). -/
def exposureBranch (score : ℤ) : Exposure :=
  if 7 ≤ score then ⟨score, "High", "Home/work clusters likely identifiable", min 100 (score * 10)⟩
  else if 4 ≤ score then ⟨score, "Medium", "Some routine patterns visible", min 100 (score * 10)⟩
  else ⟨score, "Low", "Limited routine patterns visible", min 100 (score * 10)⟩

/-- Translation of `compute_exposure(points, summary)`
(member4_dashboard.py lines 125-154): early return on empty input, then the
capped heuristic score with its label and fixed rationale.  `unique_clusters`
is the number of distinct entries of
`[p.get("cluster_id", -1) for p in points if p.get("cluster_id", -1) != -1]`,
which `exposureScore0` computes as `(points.filter (. != -1)).dedup.length`. -/
def compute_exposure (points : List ℤ) (anomalies : ℤ) : Exposure :=
  if points = [] then ⟨0, "Low", "No data", 0⟩
  else exposureBranch (max 0 (min 10 (exposureScore0 points anomalies)))

/-- Score formula exactly as the specification words it: base 3, +2 when the
total number of points is at least 10, +2 when at least 2 distinct non-noise
clusters, +1 more when at least 3, +1 when `anomalies_detected` is zero,
clamped to the interval 0..10. -/
def exposureSpecScore (points : List ℤ) (anomalies : ℤ) : ℤ :=
  max 0 (min 10 (3
    + (if 10 ≤ points.length then 2 else 0)
    + (if 2 ≤ (points.filter (fun c => c ≠ -1)).dedup.length then 2 else 0)
    + (if 3 ≤ (points.filter (fun c => c ≠ -1)).dedup.length then 1 else 0)
    + (if anomalies = 0 then 1 else 0)))

/-- Label rule exactly as the specification words it. -/
def exposureSpecLabel (score : ℤ) : String :=
  if 7 ≤ score then "High" else if 4 ≤ score then "Medium" else "Low"

/-! ## Member 3: movement segmentation (member3_movement.py)

Timestamps that parsed successfully are modelled as `PyTime`: an integer
number of seconds (`t`, the value `datetime` comparison and subtraction
use: the wall clock for a naive datetime, the UTC instant for an aware
one) together with the awareness flag (`aware` is true when the format
carried `%z`).  In Python 3, comparing or subtracting an offset-naive and
an offset-aware datetime raises `TypeError`; two naive or two aware
datetimes compare and subtract totally, by `t`.  `none` models a point
whose timestamp string failed every format.  The `haversine` helper
(lines 61-72) is a transcendental function of the coordinates and is kept
abstract as a parameter `hav : Hav`; every claim below holds for all
values of it. -/

abbrev Time := ℤ

/-- A parsed `datetime`: comparison value in seconds and awareness flag. -/
structure PyTime where
  t : ℤ
  aware : Bool
deriving DecidableEq

/-- Distance function standing for `haversine(lat1, lon1, lat2, lon2)`. -/
abbrev Hav := ℚ → ℚ → ℚ → ℚ → ℚ

/-- One entry of `parsed_points` (member3_movement.py lines 197-207): the
point's coordinates, the outcome of `parse_timestamp` on its timestamp
string, its cluster id (`none` models a JSON null; a missing key is already
collapsed to `-1` by `p.get("cluster_id", p.get("cluster", -1))`), and its
filename. -/
structure ObsIn where
  lat : ℚ
  lon : ℚ
  timestamp : Option PyTime
  cluster_id : Option ℤ
  filename : String
deriving DecidableEq

/-- Speed thresholds of member3_movement.py lines 49-51. -/
def SPEED_STATIONARY : ℚ := 1

def SPEED_WALKING : ℚ := 6

def SPEED_DRIVING : ℚ := 120

/-- Translation of `classify_speed` (member3_movement.py lines 97-108). -/
def classify_speed (speed_kmh : Option ℚ) : String :=
  match speed_kmh with
  | none => "unknown"
  | some s =>
    if s < SPEED_STATIONARY then "stationary"
    else if s < SPEED_WALKING then "walking"
    else if s < SPEED_DRIVING then "driving"
    else "anomaly/flight"

/-- Sort key of member3_movement.py line 210,
`x["timestamp"] or datetime.max`: a missing timestamp sorts as the maximal
key, after every real timestamp. -/
def tsKey (p : ObsIn) : WithTop ℤ :=
  match p.timestamp with
  | some ts => (ts.t : WithTop ℤ)
  | none => ⊤

/-- Awareness of a point's sort key: the key for a missing timestamp is
`datetime.max`, which is offset-naive. -/
def keyAware (p : ObsIn) : Bool :=
  match p.timestamp with
  | some ts => ts.aware
  | none => false

/-- The sort at line 210 raises `TypeError` exactly when the key list holds
both an offset-naive and an offset-aware datetime: a comparison sort that
orders the two classes must compare some naive/aware pair, and every
`datetime` comparison between the classes raises. -/
def sortRaises (points : List ObsIn) : Bool :=
  points.any keyAware && points.any (fun p => !keyAware p)

/-- Sort order used by `parsed_points.sort(key=...)` on mutually comparable
keys (all naive, or all aware and hence ordered by UTC instant). -/
def tsLE (a b : ObsIn) : Prop := tsKey a ≤ tsKey b

instance : DecidableRel tsLE :=
  fun a b => inferInstanceAs (Decidable (tsKey a ≤ tsKey b))

instance : IsTotal ObsIn tsLE := ⟨fun a b => le_total (tsKey a) (tsKey b)⟩

instance : IsTrans ObsIn tsLE := ⟨fun _ _ _ h h2 => le_trans h h2⟩

/-- One movement segment (member3_movement.py lines 226-246).  The
`from_point`/`to_point` sub-records keep the fields of the parsed points. -/
structure Segment where
  from_point : ObsIn
  to_point : ObsIn
  distance_km : ℚ
  time_delta_seconds : Option ℚ
  speed_kmh : Option ℚ
  behaviour : String
deriving DecidableEq

/-- Time delta of lines 221-222: defined only when both endpoints carry a
parsed timestamp, as `(curr - prev).total_seconds()`.  The subtraction is
reached only for adjacent points of a successfully sorted list, whose
timestamps share one awareness class (a mixed pair would already have made
the sort raise), so it is the total difference of the comparison values. -/
def timeDelta (prev curr : ObsIn) : Option ℚ :=
  match prev.timestamp, curr.timestamp with
  | some tp, some tc => some (((tc.t - tp.t : ℤ) : ℚ))
  | _, _ => none

/-- Speed of lines 223-224: `(dist_km / time_delta_seconds) * 3600`, computed
only when the time delta is defined and strictly positive. -/
def speedOf (hav : Hav) (prev curr : ObsIn) : Option ℚ :=
  match timeDelta prev curr with
  | some d =>
    if 0 < d then some (hav prev.lat prev.lon curr.lat curr.lon / d * 3600) else none
  | none => none

/-- One segment record (lines 217-246).  Stored distance and speed are
rounded to 4 and 2 decimals, the time delta to 1; the behaviour is
classified from the unrounded speed, exactly as in the code. -/
def mkSegment (hav : Hav) (prev curr : ObsIn) : Segment :=
  { from_point := prev
    to_point := curr
    distance_km := pyRound 4 (hav prev.lat prev.lon curr.lat curr.lon)
    time_delta_seconds := (timeDelta prev curr).map (pyRound 1)
    speed_kmh := (speedOf hav prev curr).map (pyRound 2)
    behaviour := classify_speed (speedOf hav prev curr) }

/-- The loop of lines 213-246: one segment per adjacent pair of the sorted
point list. -/
def segmentsOf (hav : Hav) : List ObsIn → List Segment
  | [] => []
  | [_] => []
  | a :: b :: rest => mkSegment hav a b :: segmentsOf hav (b :: rest)

/-- Translation of `compute_point_to_point_movements` (member3_movement.py
lines 191-248): sort the parsed points by timestamp (missing timestamps
last, stable), then emit one segment per adjacent pair; the function
returns `(segments, parsed_points)`.  When the key list mixes offset-naive
and offset-aware datetimes, the sort at line 210 raises `TypeError`, which
escapes to the caller (modelled as `Except.error`). -/
def compute_point_to_point_movements (hav : Hav) (points : List ObsIn) :
    Except String (List Segment × List ObsIn) :=
  if sortRaises points then
    Except.error "TypeError: cannot compare offset-naive and offset-aware datetimes"
  else
    let parsed := List.insertionSort tsLE points
    Except.ok (segmentsOf hav parsed, parsed)

/-! ## Member 2: clustering stage (member2/cluster.py)

The script is module-level code: load the input, `exit()` when it is empty,
keep the points that carry both coordinates, `exit()` when none survive,
run DBSCAN (an external sklearn call, kept abstract as the label function
`dbscan`), attach the labels, and build the cluster summary and the
movement radius.  The `exit()` abort paths are modelled as `Except.error`
carrying the printed message. -/

structure RawObs where
  lat : Option ℚ
  lon : Option ℚ
  image_id : String
deriving DecidableEq

/-- One entry of `cluster_summary` (member2/cluster.py lines 100-113). -/
structure ClusterRec where
  cluster_id : ℤ
  center_lat : ℚ
  center_lon : ℚ
  visits : ℕ
deriving DecidableEq

structure Member2Output where
  points_with_clusters : List (RawObs × ℤ)
  clusters : List ClusterRec
  noise_points : ℕ
  movement_radius_km : ℚ

/-- Validity test of member2/cluster.py line 49: both coordinates present. -/
def hasCoords (p : RawObs) : Bool := p.lat.isSome && p.lon.isSome

/-- Insertion-ordered keys of the `clusters` dict (lines 88-98): the
distinct non-noise cluster ids in order of first appearance. -/
def clusterIdsOf (pts : List (RawObs × ℤ)) : List ℤ :=
  pts.foldl
    (fun ks pc => if pc.2 = -1 then ks else if pc.2 ∈ ks then ks else ks ++ [pc.2]) []

/-- Member coordinate pairs of one cluster id (line 98). -/
def membersOf (pts : List (RawObs × ℤ)) (cid : ℤ) : List (ℚ × ℚ) :=
  (pts.filter (fun pc => decide (pc.2 = cid))).map
    (fun pc => (pc.1.lat.getD 0, pc.1.lon.getD 0))

/-- One `cluster_summary` record (lines 102-113): centroid is the arithmetic
mean of the member coordinates rounded to 6 decimals, `visits` the member
count. -/
def mkClusterRec (pts : List (RawObs × ℤ)) (cid : ℤ) : ClusterRec :=
  { cluster_id := cid
    center_lat := pyRound 6 (((membersOf pts cid).map Prod.fst).sum / ((membersOf pts cid).length : ℚ))
    center_lon := pyRound 6 (((membersOf pts cid).map Prod.snd).sum / ((membersOf pts cid).length : ℚ))
    visits := (membersOf pts cid).length }

/-- The `cluster_summary` list (lines 88-113). -/
def cluster_summary (pts : List (RawObs × ℤ)) : List ClusterRec :=
  (clusterIdsOf pts).map (mkClusterRec pts)

/-- All index pairs i < j, as iterated by lines 120-127. -/
def pairsLT {α : Type} : List α → List (α × α)
  | [] => []
  | x :: l => (l.map (fun y => (x, y))) ++ pairsLT l

/-- Maximal pairwise centroid distance (lines 118-127). -/
def movementRadius (hav : Hav) (summary : List ClusterRec) : ℚ :=
  (pairsLT summary).foldl
    (fun m cc => max m (hav cc.1.center_lat cc.1.center_lon cc.2.center_lat cc.2.center_lon)) 0

/-- Translation of the module-level flow of member2/cluster.py lines 37-139:
empty input and all-invalid input hit `exit()`; otherwise labels are
attached positionally to the valid points and the summary is derived. -/
def clusterMain (dbscan : List (ℚ × ℚ) → List ℤ) (hav : Hav) (data : List RawObs) :
    Except String Member2Output :=
  if data = [] then Except.error "Input file is empty."
  else
    let valid_points := data.filter hasCoords
    let coords := valid_points.map (fun p => (p.lat.getD 0, p.lon.getD 0))
    if coords.length = 0 then Except.error "No valid GPS coordinates found."
    else
      let labels := dbscan coords
      let pts := valid_points.zip labels
      let summary := cluster_summary pts
      Except.ok ⟨pts, summary, labels.count (-1), pyRound 2 (movementRadius hav summary)⟩

/-! ## Member 3: summary statistics (member3_movement.py lines 385-413)

The two display strings (`total_distance_display`, `time_span_human`) are
string renderings of `total_distance_km` and `time_span_seconds` and are
not modelled. -/

/-- Python `max(l)` over a non-empty list, `none` when empty. -/
def listMaxZ : List ℤ → Option ℤ
  | [] => none
  | x :: xs => some (xs.foldl max x)

/-- Python `min(l)` over a non-empty list, `none` when empty. -/
def listMinZ : List ℤ → Option ℤ
  | [] => none
  | x :: xs => some (xs.foldl min x)

def listMaxQ : List ℚ → Option ℚ
  | [] => none
  | x :: xs => some (xs.foldl max x)

def listMinQ : List ℚ → Option ℚ
  | [] => none
  | x :: xs => some (xs.foldl min x)

structure SummaryStats where
  total_points : ℕ
  total_segments : ℕ
  total_clusters : ℕ
  total_distance_km : ℚ
  avg_speed_kmh : Option ℚ
  max_speed_kmh : Option ℚ
  min_speed_kmh : Option ℚ
  time_span_seconds : Option ℤ
  first_timestamp : Option Time
  last_timestamp : Option Time
  behaviour_breakdown : String → ℕ

/-- Translation of `compute_summary_statistics` (member3_movement.py lines
385-413).  The speed list keeps the defined, strictly positive speeds; the
behaviour histogram is the `Counter` of the segments' behaviour strings,
modelled as its count function. -/
def compute_summary_statistics (segments : List Segment) (parsed_points : List ObsIn)
    (clusters : List ClusterRec) : SummaryStats :=
  let speeds := (segments.filterMap (fun s => s.speed_kmh)).filter (fun v => decide (0 < v))
  let valid_times := (parsed_points.filterMap (fun p => p.timestamp)).map (fun ts => ts.t)
  { total_points := parsed_points.length
    total_segments := segments.length
    total_clusters := clusters.length
    total_distance_km := pyRound 4 ((segments.map (fun s => s.distance_km)).sum)
    avg_speed_kmh :=
      if speeds = [] then none else some (pyRound 2 (speeds.sum / (speeds.length : ℚ)))
    max_speed_kmh := (listMaxQ speeds).map (pyRound 2)
    min_speed_kmh := (listMinQ speeds).map (pyRound 2)
    time_span_seconds :=
      if 2 ≤ valid_times.length then
        match listMaxZ valid_times, listMinZ valid_times with
        | some mx, some mn => some (mx - mn)
        | _, _ => none
      else none
    first_timestamp := listMinZ valid_times
    last_timestamp := listMaxZ valid_times
    behaviour_breakdown := fun b => (segments.map (fun s => s.behaviour)).count b }

/-! ## Member 3: movement corridors (member3_movement.py lines 350-382)

The `Counter`/`defaultdict` pair keyed by the string `str(c_from) + " -> " +
str(c_to)` is modelled with the directed id pair itself as key (the string
key is in bijection with the pair); `most_common()` sorts the keys
descending by count, stably, which insertion sort over the
first-appearance key order reproduces. -/

/-- Key test of lines 360-366: both endpoint cluster ids present (not the
JSON null), not -1, and distinct. -/
def validCorridorKey (s : Segment) : Option (ℤ × ℤ) :=
  match s.from_point.cluster_id, s.to_point.cluster_id with
  | some cf, some ct => if cf ≠ -1 ∧ ct ≠ -1 ∧ cf ≠ ct then some (cf, ct) else none
  | _, _ => none

/-- Keys in order of first appearance while scanning the segments, as the
insertion-ordered `Counter` holds them. -/
def corridorKeys (segs : List Segment) : List (ℤ × ℤ) :=
  segs.foldl
    (fun ks s => match validCorridorKey s with
      | some k => if k ∈ ks then ks else ks ++ [k]
      | none => ks) []

/-- The count accumulated for one key (line 368). -/
def corridorTripCount (segs : List Segment) (k : ℤ × ℤ) : ℕ :=
  segs.foldl (fun n s => if validCorridorKey s = some k then n + 1 else n) 0

/-- The distance list accumulated for one key (line 369). -/
def corridorDistances (segs : List Segment) (k : ℤ × ℤ) : List ℚ :=
  segs.foldl (fun ds s => if validCorridorKey s = some k then ds ++ [s.distance_km] else ds) []

structure CorridorRecord where
  corridor : ℤ × ℤ
  trip_count : ℕ
  avg_distance_km : ℚ
  min_distance_km : ℚ
  max_distance_km : ℚ
deriving DecidableEq

/-- One corridor record (lines 372-380). -/
def mkCorridorRecord (segs : List Segment) (k : ℤ × ℤ) : CorridorRecord :=
  { corridor := k
    trip_count := corridorTripCount segs k
    avg_distance_km := pyRound 4 ((corridorDistances segs k).sum /
      ((corridorDistances segs k).length : ℚ))
    min_distance_km := pyRound 4 ((listMinQ (corridorDistances segs k)).getD 0)
    max_distance_km := pyRound 4 ((listMaxQ (corridorDistances segs k)).getD 0) }

/-- Descending-count order used by `most_common()`. -/
def corridorGE (segs : List Segment) (k1 k2 : ℤ × ℤ) : Prop :=
  corridorTripCount segs k2 ≤ corridorTripCount segs k1

instance (segs : List Segment) : DecidableRel (corridorGE segs) :=
  fun k1 k2 => inferInstanceAs (Decidable (_ ≤ _))

instance (segs : List Segment) : IsTotal (ℤ × ℤ) (corridorGE segs) :=
  ⟨fun a b => le_total (corridorTripCount segs b) (corridorTripCount segs a)⟩

instance (segs : List Segment) : IsTrans (ℤ × ℤ) (corridorGE segs) :=
  ⟨fun _ _ _ h1 h2 => le_trans h2 h1⟩

/-- Translation of `analyse_movement_corridors` (member3_movement.py lines
350-382). -/
def analyse_movement_corridors (segs : List Segment) : List CorridorRecord :=
  (List.insertionSort (corridorGE segs) (corridorKeys segs)).map (mkCorridorRecord segs)

/-! ## Member 3: dwell-time analysis (member3_movement.py lines 281-322)

`cluster_times` maps each non-noise, non-null cluster id to the timestamps
of its parsed points; the dict is modelled by the per-id function below
(`none` when the id has no entry).  `total_dwell_seconds` is an integer
number of seconds here, so the code's `round(total_dwell, 1)` is the
identity on it and is dropped. -/

/-- Datetimes collected for one cluster id (lines 288-291): points whose
`cluster_id` equals the id (so in particular is neither null nor missing)
and whose timestamp parsed. -/
def clusterDatetimes (pts : List ObsIn) (cid : ℤ) : List PyTime :=
  (pts.filter (fun p => decide (p.cluster_id = some cid))).filterMap (fun p => p.timestamp)

/-- The comparison values of one cluster's collected datetimes; once the
per-cluster sort has not raised, the cluster's datetimes share one
awareness class, and sorting and subtracting them acts on these values. -/
def clusterTimestamps (pts : List ObsIn) (cid : ℤ) : List Time :=
  (clusterDatetimes pts cid).map (fun ts => ts.t)

/-- `analyse_dwell_times` raises `TypeError` (at `timestamps.sort()`, line
295, or at the gap subtraction, line 302) exactly when some non-noise
cluster collects both an offset-aware and an offset-naive datetime; the
exception aborts the whole call, so no dwell dict is produced. -/
def dwellRaises (pts : List ObsIn) : Bool :=
  pts.any (fun p => pts.any (fun q =>
    match p.cluster_id, p.timestamp, q.timestamp with
    | some cp, some tp, some tq =>
      decide (cp ≠ -1) && decide (q.cluster_id = some cp) && tp.aware && !tq.aware
    | _, _, _ => false))

/-- The visit loop of lines 296-310 over the sorted timestamps: state is
(current_visit_start, last_ts, total_dwell, visit_count); a gap above 3600
seconds closes the open visit; the final open visit is closed at the end. -/
def dwellLoop : Time → Time → ℤ → ℕ → List Time → ℤ × ℕ
  | start, last, total, visits, [] => (total + (last - start), visits)
  | start, last, total, visits, t :: rest =>
    if 3600 < t - last then dwellLoop t t (total + (last - start)) (visits + 1) rest
    else dwellLoop start t total visits rest

structure DwellRecord where
  cluster_id : ℤ
  total_dwell_seconds : ℤ
  visit_count : ℕ
  point_count : ℕ
  first_seen : Time
  last_seen : Time
deriving DecidableEq

/-- Translation of `analyse_dwell_times` (lines 281-322), viewed per cluster
id: the whole call raises (`Except.error`) when any cluster mixes
offset-aware and offset-naive datetimes; otherwise `ok none` when the id is
the noise id or collected no timestamps, and otherwise the dwell record
built from the sorted timestamp list. -/
def analyse_dwell_times (pts : List ObsIn) (cid : ℤ) : Except String (Option DwellRecord) :=
  if dwellRaises pts then
    Except.error "TypeError: cannot compare offset-naive and offset-aware datetimes"
  else Except.ok
    (if cid = -1 then none
     else
      match List.insertionSort (fun a b : Time => a ≤ b) (clusterTimestamps pts cid) with
      | [] => none
      | t0 :: rest =>
        some { cluster_id := cid
               total_dwell_seconds := (dwellLoop t0 t0 0 1 rest).1
               visit_count := (dwellLoop t0 t0 0 1 rest).2
               point_count := (t0 :: rest).length
               first_seen := t0
               last_seen := (t0 :: rest).getLast (List.cons_ne_nil t0 rest) })

/-- Specification-side visit decomposition: the (start, end) spans of the
maximal runs of a sorted timestamp list in which consecutive gaps stay
within 3600 seconds. -/
def visitSpansFrom : Time → List Time → List (Time × Time)
  | t, [] => [(t, t)]
  | t, u :: rest =>
    if 3600 < u - t then (t, t) :: visitSpansFrom u rest
    else
      match visitSpansFrom u rest with
      | [] => [(t, t)]
      | ab :: tl => (t, ab.2) :: tl

def visitSpans : List Time → List (Time × Time)
  | [] => []
  | t :: rest => visitSpansFrom t rest

/-- Sum of the spans, span = visit end minus visit start. -/
def spanSum (spans : List (Time × Time)) : ℤ := (spans.map (fun ab => ab.2 - ab.1)).sum

def replaceStart (s : Time) : List (Time × Time) → List (Time × Time)
  | [] => []
  | ab :: tl => (s, ab.2) :: tl

/-! ## Member 3: timestamp parsing (member3_movement.py lines 75-94)

`parse_timestamp` tries `datetime.strptime` on a fixed ordered format list,
catching `ValueError`/`TypeError`.  `strptime` below models CPython's
`_strptime` for the directives those seven formats use: each directive is
matched by its `_strptime` regex class (leftmost alternative first, with
backtracking), a whitespace in the format matches a run of whitespace,
literals match case-insensitively (the regex is compiled with IGNORECASE),
the whole string must be consumed, and the final `datetime` construction
validates the day against the month length (Gregorian leap years), the
year against MINYEAR = 1, the second against 0..59 (the regex admits leap
seconds 60/61, the constructor rejects them) and the timezone offset
against (-24 h, 24 h). -/

structure DateTime where
  year : ℕ
  month : ℕ
  day : ℕ
  hour : ℕ
  minute : ℕ
  second : ℕ
  microsecond : ℕ
  tzOffsetSeconds : Option ℤ
deriving DecidableEq

inductive Directive where
  | lit : Char → Directive
  | ws : Directive
  | year4 : Directive
  | month2 : Directive
  | day2 : Directive
  | hour2 : Directive
  | minute2 : Directive
  | second2 : Directive
  | fraction : Directive
  | tzoffset : Directive
deriving DecidableEq

/-- Parse state with `_strptime`'s defaults (year 1900, January 1st). -/
structure Acc where
  y : ℕ
  mo : ℕ
  d : ℕ
  h : ℕ
  mi : ℕ
  s : ℕ
  us : ℕ
  tz : Option ℤ
deriving DecidableEq

def accInit : Acc := ⟨1900, 1, 1, 0, 0, 0, 0, none⟩

def digitVal (c : Char) : Option ℕ :=
  if c.isDigit then some (c.toNat - 48) else none

def take1 (s : List Char) : Option (ℕ × List Char) :=
  match s with
  | a :: r => (digitVal a).map (fun x => (x, r))
  | [] => none

def take2 (s : List Char) : Option (ℕ × ℕ × List Char) :=
  match s with
  | a :: b :: r =>
    match digitVal a, digitVal b with
    | some x, some y => some (x, y, r)
    | _, _ => none
  | _ => none

/-- Regex class of `%Y`: exactly four digits. -/
def yearAlts (s : List Char) : List (ℕ × List Char) :=
  match s with
  | a :: b :: c :: d :: r =>
    match digitVal a, digitVal b, digitVal c, digitVal d with
    | some w, some x, some y, some z => [(((w * 10 + x) * 10 + y) * 10 + z, r)]
    | _, _, _, _ => []
  | _ => []

/-- Regex class of `%m`, alternatives in order: `1[0-2]`, `0[1-9]`, `[1-9]`. -/
def monthAlts (s : List Char) : List (ℕ × List Char) :=
  (match take2 s with
   | some (x, y, r) =>
     (if x = 1 ∧ y ≤ 2 then [(10 + y, r)] else []) ++
     (if x = 0 ∧ 1 ≤ y then [(y, r)] else [])
   | none => []) ++
  (match take1 s with
   | some (x, r) => if 1 ≤ x then [(x, r)] else []
   | none => [])

/-- Regex class of `%d`: `3[01]`, `[1-2]\d`, `0[1-9]`, `[1-9]`, space +
`[1-9]`. -/
def dayAlts (s : List Char) : List (ℕ × List Char) :=
  (match take2 s with
   | some (x, y, r) =>
     (if x = 3 ∧ y ≤ 1 then [(30 + y, r)] else []) ++
     (if 1 ≤ x ∧ x ≤ 2 then [(10 * x + y, r)] else []) ++
     (if x = 0 ∧ 1 ≤ y then [(y, r)] else [])
   | none => []) ++
  (match take1 s with
   | some (x, r) => if 1 ≤ x then [(x, r)] else []
   | none => []) ++
  (match s with
   | a :: rest =>
     if a = ' ' then
       match take1 rest with
       | some (x, r) => if 1 ≤ x then [(x, r)] else []
       | none => []
     else []
   | [] => [])

/-- Regex class of `%H`: `2[0-3]`, `[0-1]\d`, `\d`. -/
def hourAlts (s : List Char) : List (ℕ × List Char) :=
  (match take2 s with
   | some (x, y, r) =>
     (if x = 2 ∧ y ≤ 3 then [(20 + y, r)] else []) ++
     (if x ≤ 1 then [(10 * x + y, r)] else [])
   | none => []) ++
  (match take1 s with
   | some (x, r) => [(x, r)]
   | none => [])

/-- Regex class of `%M`: `[0-5]\d`, `\d`. -/
def minuteAlts (s : List Char) : List (ℕ × List Char) :=
  (match take2 s with
   | some (x, y, r) => if x ≤ 5 then [(10 * x + y, r)] else []
   | none => []) ++
  (match take1 s with
   | some (x, r) => [(x, r)]
   | none => [])

/-- Regex class of `%S`: `6[0-1]`, `[0-5]\d`, `\d` (leap seconds pass the
regex and are rejected later by the `datetime` constructor). -/
def secondAlts (s : List Char) : List (ℕ × List Char) :=
  (match take2 s with
   | some (x, y, r) =>
     (if x = 6 ∧ y ≤ 1 then [(60 + y, r)] else []) ++
     (if x ≤ 5 then [(10 * x + y, r)] else [])
   | none => []) ++
  (match take1 s with
   | some (x, r) => [(x, r)]
   | none => [])

def digitsPrefix : List Char → ℕ → List ℕ
  | _, 0 => []
  | [], _ => []
  | c :: r, k + 1 =>
    match digitVal c with
    | some x => x :: digitsPrefix r k
    | none => []

def natOfDigits (ds : List ℕ) : ℕ := ds.foldl (fun n d => n * 10 + d) 0

/-- Regex class of `%f`: one to six digits, greedy (longest candidate
first); the value is microseconds, right-padded with zeros. -/
def fracAlts (s : List Char) : List (ℕ × List Char) :=
  (List.range (digitsPrefix s 6).length).map (fun j =>
    ((natOfDigits ((digitsPrefix s 6).take ((digitsPrefix s 6).length - j)) *
        10 ^ (6 - ((digitsPrefix s 6).length - j))),
      s.drop ((digitsPrefix s 6).length - j)))

def optColon (s : List Char) : List Char :=
  match s with
  | ':' :: r => r
  | _ => s

def dropWS (s : List Char) : List Char :=
  match s with
  | c :: r => if c.isWhitespace then dropWS r else c :: r
  | [] => []

/-- Optional seconds (and optional fraction) group of the `%z` regex,
greedy; returns the parsed seconds and the remaining input, consuming
nothing when the group does not match. -/
def tzSeconds (s : List Char) : ℕ × List Char :=
  match take2 (optColon s) with
  | some (z1, z2, r) =>
    if 5 < z1 then (0, s)
    else
      (10 * z1 + z2,
       match r with
       | '.' :: rr =>
         if (digitsPrefix rr 6).length = 0 then r else rr.drop (digitsPrefix rr 6).length
       | _ => r)
  | none => (0, s)

/-- The `%z` regex: `[+-]\d\d:?[0-5]\d(:?[0-5]\d(\.\d{1,6})?)?` or a
case-sensitive `Z` (offset 0). -/
def parseTZ (s : List Char) : Option (ℤ × List Char) :=
  match s with
  | [] => none
  | c :: r =>
    if c = 'Z' then some (0, r)
    else if c = '+' ∨ c = '-' then
      match take2 r with
      | none => none
      | some (x1, x2, r1) =>
        match take2 (optColon r1) with
        | none => none
        | some (y1, y2, r3) =>
          if 5 < y1 then none
          else
            let total : ℤ :=
              ((10 * x1 + x2) * 3600 + (10 * y1 + y2) * 60 + (tzSeconds r3).1 : ℕ)
            some (if c = '-' then -total else total, (tzSeconds r3).2)
    else none

/-- Candidate continuations of one directive, in the order the regex engine
tries them. -/
def dirAlts (dir : Directive) (acc : Acc) (s : List Char) : List (Acc × List Char) :=
  match dir with
  | .lit c =>
    match s with
    | c2 :: r => if c2.toLower = c.toLower then [(acc, r)] else []
    | [] => []
  | .ws =>
    match s with
    | c2 :: r => if c2.isWhitespace then [(acc, dropWS r)] else []
    | [] => []
  | .year4 => (yearAlts s).map (fun p => ({acc with y := p.1}, p.2))
  | .month2 => (monthAlts s).map (fun p => ({acc with mo := p.1}, p.2))
  | .day2 => (dayAlts s).map (fun p => ({acc with d := p.1}, p.2))
  | .hour2 => (hourAlts s).map (fun p => ({acc with h := p.1}, p.2))
  | .minute2 => (minuteAlts s).map (fun p => ({acc with mi := p.1}, p.2))
  | .second2 => (secondAlts s).map (fun p => ({acc with s := p.1}, p.2))
  | .fraction => (fracAlts s).map (fun p => ({acc with us := p.1}, p.2))
  | .tzoffset =>
    match parseTZ s with
    | some (off, r) => [({acc with tz := some off}, r)]
    | none => []

/-- Backtracking matcher: first successful completion of the directive
list, leftover input returned (the regex engine's first match; the
full-consumption check happens afterwards, outside the regex). -/
def matchSeq : List Directive → Acc → List Char → Option (Acc × List Char)
  | [], acc, s => some (acc, s)
  | dir :: rest, acc, s =>
    (dirAlts dir acc s).findSome? (fun p => matchSeq rest p.1 p.2)

def isLeap (y : ℕ) : Bool := (y % 4 == 0 && y % 100 != 0) || y % 400 == 0

def daysInMonth (y m : ℕ) : ℕ :=
  if m = 2 then (if isLeap y then 29 else 28)
  else if m = 4 ∨ m = 6 ∨ m = 9 ∨ m = 11 then 30
  else 31

/-- One `datetime.strptime(s, fmt)` call under the try/except of
member3_movement.py lines 89-93: `none` is any caught `ValueError`. -/
def strptime (fmt : List Directive) (s : String) : Option DateTime :=
  match matchSeq fmt accInit s.toList with
  | none => none
  | some (acc, rest) =>
    if rest = [] ∧ 1 ≤ acc.y ∧ acc.d ≤ daysInMonth acc.y acc.mo ∧ acc.s ≤ 59 ∧
        acc.tz.all (fun off => off.natAbs < 86400)
    then some ⟨acc.y, acc.mo, acc.d, acc.h, acc.mi, acc.s, acc.us, acc.tz⟩
    else none

def FMT_EXIF : List Directive :=
  [.year4, .lit ':', .month2, .lit ':', .day2, .ws,
   .hour2, .lit ':', .minute2, .lit ':', .second2]

def FMT_ISO : List Directive :=
  [.year4, .lit '-', .month2, .lit '-', .day2, .lit 'T',
   .hour2, .lit ':', .minute2, .lit ':', .second2]

def FMT_DB : List Directive :=
  [.year4, .lit '-', .month2, .lit '-', .day2, .ws,
   .hour2, .lit ':', .minute2, .lit ':', .second2]

def FMT_ISO_FRAC : List Directive := FMT_ISO ++ [.lit '.', .fraction]

def FMT_DB_FRAC : List Directive := FMT_DB ++ [.lit '.', .fraction]

def FMT_EXIF_TZ : List Directive := FMT_EXIF ++ [.tzoffset]

def FMT_ISO_TZ : List Directive := FMT_ISO ++ [.tzoffset]

/-- The format list of member3_movement.py lines 80-88, in order. -/
def formats : List (List Directive) :=
  [FMT_EXIF, FMT_ISO, FMT_DB, FMT_ISO_FRAC, FMT_DB_FRAC, FMT_EXIF_TZ, FMT_ISO_TZ]

/-- Translation of `parse_timestamp` (member3_movement.py lines 75-94): the
`for`/`try`/`except`/`continue` loop is the first successful parse over the
format list; a `None` input raises `TypeError` in every iteration, which is
caught, so the result is `None`. -/
def parse_timestamp (ts : Option String) : Option DateTime :=
  match ts with
  | none => none
  | some s => formats.findSome? (fun fmt => strptime fmt s)

/-- C1 counterexample: on an empty points list `compute_exposure` returns
score 0 with label "Low" (early return), while the claimed formula (base 3,
bonuses, clamp) yields score 4 with label "Medium" when
`anomalies_detected = 0`; so the claim, quantified over every points list,
fails at the empty list. -/
theorem C1_counterexample :
    (compute_exposure [] 0).score_10 ≠ exposureSpecScore [] 0 ∧
    (compute_exposure [] 0).score_10 = 0 ∧ (compute_exposure [] 0).label = "Low" ∧
    exposureSpecScore [] 0 = 4 ∧ exposureSpecLabel (exposureSpecScore [] 0) = "Medium" := by
  decide

/-- C1 (amended to non-empty input): for every non-empty points list and every
`anomalies_detected` value, `compute_exposure` returns exactly the score of
the claimed formula (base 3; +2 when at least 10 points; +2 when at least 2
distinct non-noise clusters; +1 more when at least 3; +1 when
`anomalies_detected` is zero; clamped to 0..10), labelled "High" when the
score is at least 7, "Medium" when at least 4, else "Low", each label paired
with its fixed rationale string. -/
theorem C1_exposure_amended (points : List ℤ) (anomalies : ℤ) (h : points ≠ []) :
    (compute_exposure points anomalies).score_10 = exposureSpecScore points anomalies ∧
    (compute_exposure points anomalies).label =
      exposureSpecLabel (exposureSpecScore points anomalies) ∧
    ((compute_exposure points anomalies).label = "High" →
      (compute_exposure points anomalies).explanation = "Home/work clusters likely identifiable") ∧
    ((compute_exposure points anomalies).label = "Medium" →
      (compute_exposure points anomalies).explanation = "Some routine patterns visible") ∧
    ((compute_exposure points anomalies).label = "Low" →
      (compute_exposure points anomalies).explanation = "Limited routine patterns visible") := by
  unfold compute_exposure exposureSpecScore exposureSpecLabel exposureScore0 exposureBranch
  rw [if_neg h]
  split_ifs <;> simp_all

/-- C1 witness: the amended theorem applied at a concrete non-empty input. -/
theorem C1_witness :
    (compute_exposure [0, 1] 0).score_10 = exposureSpecScore [0, 1] 0 := by
  exact (C1_exposure_amended [0, 1] 0 (by decide)).1

/-- C10: for every non-empty points list the exposure score lies between 3 and
9 (the bonuses 2+2+1+1 on top of base 3 reach at most 9, so 10 and the upper
clamp are unreachable), and on the empty list the result is exactly score 0
with label "Low". -/
theorem C10_exposure_bounds :
    (∀ (points : List ℤ) (anomalies : ℤ), points ≠ [] →
      3 ≤ (compute_exposure points anomalies).score_10 ∧
      (compute_exposure points anomalies).score_10 ≤ 9) ∧
    (∀ anomalies : ℤ, compute_exposure [] anomalies = ⟨0, "Low", "No data", 0⟩) := by
  constructor
  · intro points anomalies h
    unfold compute_exposure exposureBranch exposureScore0
    rw [if_neg h]
    split_ifs <;> constructor <;> simp only [Exposure.score_10] <;> omega
  · intro anomalies
    rfl

/-- C10 witness: bounds at a concrete non-empty input. -/
theorem C10_witness :
    3 ≤ (compute_exposure [7] 2).score_10 ∧ (compute_exposure [7] 2).score_10 ≤ 9 := by
  exact C10_exposure_bounds.1 [7] 2 (by decide)

theorem roundHalfEven_intCast (k : ℤ) : roundHalfEven ((k : ℚ)) = k := by
  unfold roundHalfEven
  norm_num [Int.floor_intCast]

theorem pyRound_intCast (n : ℕ) (k : ℤ) : pyRound n ((k : ℚ)) = ((k : ℚ)) := by
  unfold pyRound
  rw [show ((k : ℚ) * (10 : ℚ) ^ n) = (((k * 10 ^ n : ℤ) : ℚ)) by push_cast; ring,
    roundHalfEven_intCast]
  push_cast
  rw [mul_div_assoc, div_self (by positivity), mul_one]

theorem segmentsOf_length (hav : Hav) :
    ∀ l : List ObsIn, (segmentsOf hav l).length = l.length - 1
  | [] => rfl
  | [_] => rfl
  | a :: b :: rest => by
    have ih := segmentsOf_length hav (b :: rest)
    simp only [segmentsOf, List.length_cons] at ih ⊢
    omega

theorem mem_segmentsOf (hav : Hav) (seg : Segment) :
    ∀ l : List ObsIn, seg ∈ segmentsOf hav l → ∃ a b, seg = mkSegment hav a b
  | [], h => by simp [segmentsOf] at h
  | [_], h => by simp [segmentsOf] at h
  | a :: b :: rest, h => by
    simp only [segmentsOf, List.mem_cons] at h
    rcases h with h | h
    · exact ⟨a, b, h⟩
    · exact mem_segmentsOf hav seg (b :: rest) h

theorem tsKey_eq_top_iff (p : ObsIn) : tsKey p = ⊤ ↔ p.timestamp = none := by
  unfold tsKey
  cases hp : p.timestamp <;> simp

theorem tsLE_of_none (x y : ObsIn) (hx : x.timestamp = none) :
    tsLE x y ↔ y.timestamp = none := by
  unfold tsLE tsKey
  rw [hx]
  cases hy : y.timestamp <;> simp [top_le_iff]

theorem filter_isNone_orderedInsert_none (x : ObsIn) (hx : x.timestamp = none) :
    ∀ l : List ObsIn,
      (List.orderedInsert tsLE x l).filter (fun p => p.timestamp.isNone) =
        x :: l.filter (fun p => p.timestamp.isNone)
  | [] => by simp [List.orderedInsert, hx]
  | y :: l => by
    by_cases hexy : tsLE x y
    · have hy : y.timestamp = none := (tsLE_of_none x y hx).mp hexy
      simp [List.orderedInsert, hexy, List.filter_cons, hx, hy]
    · have hy : y.timestamp ≠ none := fun hy => hexy ((tsLE_of_none x y hx).mpr hy)
      rcases hyv : y.timestamp with _ | ty
      · exact absurd hyv hy
      · simp [List.orderedInsert, if_neg hexy, List.filter_cons, hyv,
          filter_isNone_orderedInsert_none x hx l]

theorem filter_isNone_orderedInsert_some (x : ObsIn) (tx : PyTime)
    (hx : x.timestamp = some tx) :
    ∀ l : List ObsIn,
      (List.orderedInsert tsLE x l).filter (fun p => p.timestamp.isNone) =
        l.filter (fun p => p.timestamp.isNone)
  | [] => by simp [List.orderedInsert, hx]
  | y :: l => by
    by_cases hexy : tsLE x y
    · simp [List.orderedInsert, hexy, List.filter_cons, hx]
    · simp [List.orderedInsert, if_neg hexy, List.filter_cons,
        filter_isNone_orderedInsert_some x tx hx l]

theorem filter_isNone_insertionSort (l : List ObsIn) :
    (List.insertionSort tsLE l).filter (fun p => p.timestamp.isNone) =
      l.filter (fun p => p.timestamp.isNone) := by
  induction l with
  | nil => rfl
  | cons x l ih =>
    rcases hx : x.timestamp with _ | tx
    · simp [List.insertionSort, filter_isNone_orderedInsert_none x hx, ih,
        List.filter_cons, hx]
    · simp [List.insertionSort, filter_isNone_orderedInsert_some x tx hx, ih,
        List.filter_cons, hx]

/-- C2: `classify_speed` maps an undefined speed to "unknown", and each speed
range, lower bound included and upper bound excluded, to its behaviour
category: 0-1 km/h stationary, 1-6 walking, 6-120 driving, at least 120
anomaly/flight.  In particular a segment whose endpoints are 50 km apart
(by the distance function) and one hour apart in time gets speed 50 km/h and
behaviour "driving". -/
theorem C2_classify_speed :
    classify_speed none = "unknown" ∧
    (∀ s : ℚ, 0 ≤ s → s < 1 → classify_speed (some s) = "stationary") ∧
    (∀ s : ℚ, 1 ≤ s → s < 6 → classify_speed (some s) = "walking") ∧
    (∀ s : ℚ, 6 ≤ s → s < 120 → classify_speed (some s) = "driving") ∧
    (∀ s : ℚ, 120 ≤ s → classify_speed (some s) = "anomaly/flight") ∧
    (∀ (hav : Hav) (p q : ObsIn) (t : Time) (aw : Bool),
      p.timestamp = some ⟨t, aw⟩ → q.timestamp = some ⟨t + 3600, aw⟩ →
      hav p.lat p.lon q.lat q.lon = 50 →
      (mkSegment hav p q).speed_kmh = some 50 ∧
        (mkSegment hav p q).behaviour = "driving") := by
  refine ⟨rfl, ?_, ?_, ?_, ?_, ?_⟩
  · intro s h0 h1
    simp only [classify_speed, SPEED_STATIONARY, SPEED_WALKING, SPEED_DRIVING]
    split_ifs <;> first | rfl | linarith
  · intro s h1 h6
    simp only [classify_speed, SPEED_STATIONARY, SPEED_WALKING, SPEED_DRIVING]
    split_ifs <;> first | rfl | linarith
  · intro s h6 h120
    simp only [classify_speed, SPEED_STATIONARY, SPEED_WALKING, SPEED_DRIVING]
    split_ifs <;> first | rfl | linarith
  · intro s h120
    simp only [classify_speed, SPEED_STATIONARY, SPEED_WALKING, SPEED_DRIVING]
    split_ifs <;> first | rfl | linarith
  · intro hav p q t aw hp hq hd
    have hdelta : timeDelta p q = some ((3600 : ℚ)) := by
      simp only [timeDelta, hp, hq]
      norm_num
    have hspeed : speedOf hav p q = some ((50 : ℚ)) := by
      simp only [speedOf, hdelta, hd]
      rw [if_pos (by norm_num : (0 : ℚ) < 3600)]
      norm_num
    have hround : pyRound 2 ((50 : ℚ)) = 50 := by
      rw [show ((50 : ℚ)) = (((50 : ℤ) : ℚ)) by norm_num, pyRound_intCast]
    constructor
    · show ((speedOf hav p q).map (pyRound 2)) = some 50
      rw [hspeed, Option.map_some', hround]
    · show classify_speed (speedOf hav p q) = "driving"
      rw [hspeed]
      simp only [classify_speed, SPEED_STATIONARY, SPEED_WALKING, SPEED_DRIVING]
      rw [if_neg (by norm_num), if_neg (by norm_num), if_pos (by norm_num)]

/-- C2 witness: the theorem applied at concrete speeds and a concrete
segment. -/
theorem C2_witness :
    classify_speed (some 50) = "driving" ∧
    (mkSegment (fun _ _ _ _ => 50) ⟨0, 0, some ⟨0, false⟩, some 0, "a"⟩
        ⟨1, 1, some ⟨3600, false⟩, some 1, "b"⟩).behaviour = "driving" := by
  refine ⟨C2_classify_speed.2.2.2.1 50 (by norm_num) (by norm_num), ?_⟩
  exact (C2_classify_speed.2.2.2.2.2 (fun _ _ _ _ => 50) ⟨0, 0, some ⟨0, false⟩, some 0, "a"⟩
    ⟨1, 1, some ⟨3600, false⟩, some 1, "b"⟩ 0 false rfl (by norm_num) rfl).2

/-- C3: in every segment produced by `compute_point_to_point_movements`, the
speed is defined exactly when both endpoints carry a parsed timestamp and
the time delta is strictly positive; when the delta is missing or not
positive the speed is null and the behaviour is "unknown" (the division is
never executed). -/
theorem C3_speed_defined (hav : Hav) (pts : List ObsIn) (seg : Segment)
    (out : List Segment × List ObsIn)
    (hok : compute_point_to_point_movements hav pts = Except.ok out)
    (h : seg ∈ out.1) :
    (seg.speed_kmh.isSome ↔
      seg.from_point.timestamp.isSome ∧ seg.to_point.timestamp.isSome ∧
        ∃ d : ℚ, seg.time_delta_seconds = some d ∧ 0 < d) ∧
    ((seg.time_delta_seconds = none ∨ ∃ d : ℚ, seg.time_delta_seconds = some d ∧ d ≤ 0) →
      seg.speed_kmh = none ∧ seg.behaviour = "unknown") := by
  have hmem : seg ∈ segmentsOf hav (List.insertionSort tsLE pts) := by
    rw [compute_point_to_point_movements] at hok
    by_cases hr : sortRaises pts
    · rw [if_pos hr] at hok
      exact absurd hok (by simp)
    · rw [if_neg hr] at hok
      rw [← Except.ok.inj hok] at h
      exact h
  obtain ⟨a, b, rfl⟩ := mem_segmentsOf hav seg _ hmem
  have hfrom : (mkSegment hav a b).from_point = a := rfl
  have hto : (mkSegment hav a b).to_point = b := rfl
  have hdeltaF : (mkSegment hav a b).time_delta_seconds = (timeDelta a b).map (pyRound 1) := rfl
  have hspeedF : (mkSegment hav a b).speed_kmh = (speedOf hav a b).map (pyRound 2) := rfl
  have hbehF : (mkSegment hav a b).behaviour = classify_speed (speedOf hav a b) := rfl
  rcases ha : a.timestamp with _ | ta <;> rcases hb : b.timestamp with _ | tb
  · have hd0 : timeDelta a b = none := by simp [timeDelta, ha, hb]
    have hs0 : speedOf hav a b = none := by simp [speedOf, hd0]
    simp [hfrom, hto, hdeltaF, hspeedF, hbehF, hd0, hs0, ha, classify_speed]
  · have hd0 : timeDelta a b = none := by simp [timeDelta, ha, hb]
    have hs0 : speedOf hav a b = none := by simp [speedOf, hd0]
    simp [hfrom, hto, hdeltaF, hspeedF, hbehF, hd0, hs0, ha, classify_speed]
  · have hd0 : timeDelta a b = none := by simp [timeDelta, ha, hb]
    have hs0 : speedOf hav a b = none := by simp [speedOf, hd0]
    simp [hfrom, hto, hdeltaF, hspeedF, hbehF, hd0, hs0, hb, classify_speed]
  · have hdelta : timeDelta a b = some (((tb.t - ta.t : ℤ) : ℚ)) := by
      simp [timeDelta, ha, hb]
    have hdval : (mkSegment hav a b).time_delta_seconds = some (((tb.t - ta.t : ℤ) : ℚ)) := by
      rw [hdeltaF, hdelta, Option.map_some', pyRound_intCast]
    by_cases hpos : (0 : ℚ) < ((tb.t - ta.t : ℤ) : ℚ)
    · have hs1 : speedOf hav a b =
          some (hav a.lat a.lon b.lat b.lon / ((tb.t - ta.t : ℤ) : ℚ) * 3600) := by
        simp only [speedOf, hdelta]
        rw [if_pos hpos]
      constructor
      · rw [hspeedF, hs1, Option.map_some', hfrom, hto, hdval, ha, hb]
        simp only [Option.isSome_some, true_iff, Option.some.injEq]
        exact ⟨trivial, trivial, ((tb.t - ta.t : ℤ) : ℚ), rfl, hpos⟩
      · intro hcase
        exfalso
        rcases hcase with hnone | ⟨d, hd, hdle⟩
        · rw [hdval] at hnone
          exact Option.some_ne_none _ hnone
        · rw [hdval] at hd
          have : d = ((tb.t - ta.t : ℤ) : ℚ) := (Option.some.injEq _ _).mp hd.symm
          rw [this] at hdle
          linarith
    · have hs1 : speedOf hav a b = none := by
        simp only [speedOf, hdelta]
        rw [if_neg hpos]
      constructor
      · rw [hspeedF, hs1, hdval]
        simp only [Option.map_none']
        apply iff_of_false
        · simp
        · rintro ⟨-, -, d, hd, hdpos⟩
          have hdd : d = ((tb.t - ta.t : ℤ) : ℚ) := (Option.some.injEq _ _).mp hd.symm
          rw [hdd] at hdpos
          exact hpos hdpos
      · intro _
        rw [hspeedF, hbehF, hs1]
        exact ⟨rfl, rfl⟩

/-- C3 witness: the theorem applied to the single segment of a concrete
two-point run whose time delta is zero. -/
theorem C3_witness :
    ((mkSegment (fun _ _ _ _ => 7) ⟨0, 0, some ⟨5, false⟩, some 0, "a"⟩
        ⟨1, 1, some ⟨5, false⟩, some 1, "b"⟩).speed_kmh = none ∧
      (mkSegment (fun _ _ _ _ => 7) ⟨0, 0, some ⟨5, false⟩, some 0, "a"⟩
        ⟨1, 1, some ⟨5, false⟩, some 1, "b"⟩).behaviour = "unknown") := by
  have hsort : List.insertionSort tsLE
      [(⟨0, 0, some ⟨5, false⟩, some 0, "a"⟩ : ObsIn), ⟨1, 1, some ⟨5, false⟩, some 1, "b"⟩] =
      [(⟨0, 0, some ⟨5, false⟩, some 0, "a"⟩ : ObsIn), ⟨1, 1, some ⟨5, false⟩, some 1, "b"⟩] := by
    simp only [List.insertionSort, List.orderedInsert]
    rw [if_pos (show tsLE ⟨0, 0, some ⟨5, false⟩, some 0, "a"⟩
      ⟨1, 1, some ⟨5, false⟩, some 1, "b"⟩ from le_refl (((5 : ℤ) : WithTop ℤ)))]
  have hok : compute_point_to_point_movements (fun _ _ _ _ => 7)
      [⟨0, 0, some ⟨5, false⟩, some 0, "a"⟩, ⟨1, 1, some ⟨5, false⟩, some 1, "b"⟩] =
      Except.ok
        (segmentsOf (fun _ _ _ _ => 7) (List.insertionSort tsLE
          [⟨0, 0, some ⟨5, false⟩, some 0, "a"⟩, ⟨1, 1, some ⟨5, false⟩, some 1, "b"⟩]),
         List.insertionSort tsLE
          [⟨0, 0, some ⟨5, false⟩, some 0, "a"⟩, ⟨1, 1, some ⟨5, false⟩, some 1, "b"⟩]) := rfl
  have hmem : mkSegment (fun _ _ _ _ => 7) ⟨0, 0, some ⟨5, false⟩, some 0, "a"⟩
      ⟨1, 1, some ⟨5, false⟩, some 1, "b"⟩ ∈
      (segmentsOf (fun _ _ _ _ => 7) (List.insertionSort tsLE
          [⟨0, 0, some ⟨5, false⟩, some 0, "a"⟩, ⟨1, 1, some ⟨5, false⟩, some 1, "b"⟩]),
        List.insertionSort tsLE
          [⟨0, 0, some ⟨5, false⟩, some 0, "a"⟩,
            ⟨1, 1, some ⟨5, false⟩, some 1, "b"⟩]).1 := by
    show _ ∈ segmentsOf (fun _ _ _ _ => 7) (List.insertionSort tsLE _)
    rw [hsort]
    exact List.mem_singleton.mpr rfl
  have hdz : (mkSegment (fun _ _ _ _ => 7) ⟨0, 0, some ⟨5, false⟩, some 0, "a"⟩
      ⟨1, 1, some ⟨5, false⟩, some 1, "b"⟩).time_delta_seconds = some 0 := by
    show ((timeDelta ⟨0, 0, some ⟨5, false⟩, some 0, "a"⟩
      ⟨1, 1, some ⟨5, false⟩, some 1, "b"⟩).map (pyRound 1)) = some 0
    have ht : timeDelta (⟨0, 0, some ⟨5, false⟩, some 0, "a"⟩ : ObsIn)
        ⟨1, 1, some ⟨5, false⟩, some 1, "b"⟩ = some (((0 : ℤ) : ℚ)) := by
      simp only [timeDelta]
      norm_num
    rw [ht, Option.map_some', pyRound_intCast]
    norm_num
  exact (C3_speed_defined (fun _ _ _ _ => 7)
    [⟨0, 0, some ⟨5, false⟩, some 0, "a"⟩, ⟨1, 1, some ⟨5, false⟩, some 1, "b"⟩]
    (mkSegment (fun _ _ _ _ => 7) ⟨0, 0, some ⟨5, false⟩, some 0, "a"⟩
      ⟨1, 1, some ⟨5, false⟩, some 1, "b"⟩)
    _ hok hmem).2 (Or.inr ⟨0, hdz, le_refl 0⟩)

/-- C4 counterexample: two valid observations, one whose timestamp parsed
offset-aware (a `%z` format) and one naive, make `parsed_points.sort` at
line 210 raise `TypeError`, so the run aborts with no segments instead of
returning n - 1 = 1 segment; the claim, quantified over every list of
valid observations, fails here. -/
theorem C4_counterexample :
    compute_point_to_point_movements (fun _ _ _ _ => 1)
      [⟨0, 0, some ⟨0, true⟩, some 0, "a"⟩, ⟨1, 1, some ⟨100, false⟩, some 1, "b"⟩] =
      Except.error "TypeError: cannot compare offset-naive and offset-aware datetimes" := rfl

/-- C4 (amended): when the sort keys mix offset-aware and offset-naive
datetimes (the key for a missing timestamp being the naive `datetime.max`),
the sort raises `TypeError` and no segments are produced; otherwise
`compute_point_to_point_movements` keeps all n input points, returns
exactly n - 1 segments (0 when n is less than 2), and forms the segments
over the points sorted ascending by parsed timestamp with the
timestamp-less points after every timestamped one; the sort is stable, so
the relative order of the timestamp-less points (and of equal timestamps)
is the input order. -/
theorem C4_segment_structure (hav : Hav) (pts : List ObsIn) :
    (sortRaises pts = true →
      compute_point_to_point_movements hav pts =
        Except.error "TypeError: cannot compare offset-naive and offset-aware datetimes") ∧
    (sortRaises pts = false →
      ∀ (segs : List Segment) (parsed : List ObsIn),
        compute_point_to_point_movements hav pts = Except.ok (segs, parsed) →
        parsed.length = pts.length ∧
        segs.length = pts.length - 1 ∧
        (pts.length < 2 → segs = []) ∧
        parsed.Perm pts ∧
        List.Sorted tsLE parsed ∧
        List.Pairwise (fun p q => p.timestamp = none → q.timestamp = none) parsed ∧
        parsed.filter (fun p => p.timestamp.isNone) = pts.filter (fun p => p.timestamp.isNone) ∧
        segs = segmentsOf hav parsed) := by
  constructor
  · intro hr
    rw [compute_point_to_point_movements, if_pos hr]
  · intro hr segs parsed hok
    rw [compute_point_to_point_movements, if_neg (by simp [hr])] at hok
    obtain ⟨h1, h2⟩ := Prod.mk.injEq _ _ _ _ ▸ Except.ok.inj hok
    subst h1
    subst h2
    have hperm := List.perm_insertionSort tsLE pts
    have hlen : (List.insertionSort tsLE pts).length = pts.length := hperm.length_eq
    have hsorted := List.sorted_insertionSort tsLE pts
    refine ⟨hlen, ?_, ?_, hperm, hsorted, ?_, filter_isNone_insertionSort pts, rfl⟩
    · rw [segmentsOf_length, hlen]
    · intro hlt
      have hz : (segmentsOf hav (List.insertionSort tsLE pts)).length = 0 := by
        rw [segmentsOf_length, hlen]
        omega
      exact List.length_eq_zero.mp hz
    · refine hsorted.imp ?_
      intro p q hpq hp
      have hkp : tsKey p = ⊤ := (tsKey_eq_top_iff p).mpr hp
      have hq : tsKey q = ⊤ := top_le_iff.mp (hkp ▸ hpq)
      exact (tsKey_eq_top_iff q).mp hq

/-- C4 witness: the amended theorem applied to a concrete single-point run
(no mixing, hence `ok` with zero segments). -/
theorem C4_witness :
    ([] : List Segment) = [] ∧
    ([(⟨0, 0, some ⟨0, false⟩, some 0, "a"⟩ : ObsIn)]).Perm
      [(⟨0, 0, some ⟨0, false⟩, some 0, "a"⟩ : ObsIn)] := by
  have h := (C4_segment_structure (fun _ _ _ _ => 1)
    [⟨0, 0, some ⟨0, false⟩, some 0, "a"⟩]).2 (by decide)
    [] [⟨0, 0, some ⟨0, false⟩, some 0, "a"⟩] rfl
  exact ⟨h.2.2.1 (by decide), h.2.2.2.1⟩

theorem pyRound_zero (n : ℕ) : pyRound n 0 = 0 := by
  rw [show ((0 : ℚ)) = (((0 : ℤ) : ℚ)) by norm_num, pyRound_intCast]

/-- C8 counterexample: the claim says that on zero observations every stage
degrades to empty outputs without aborting; but the clustering script hits
`exit()` and produces no output record at all on the empty input. -/
theorem C8_counterexample :
    ¬ ∃ out, clusterMain (fun _ => []) (fun _ _ _ _ => 0) [] = Except.ok out := by
  rintro ⟨out, hout⟩
  rw [show clusterMain (fun _ => []) (fun _ _ _ _ => 0) [] =
    Except.error "Input file is empty." from rfl] at hout
  exact Except.noConfusion hout

/-- C8 (amended): on zero observations, or zero observations carrying both
coordinates, the clustering script terminates through `exit()` with its
printed message and produces no outputs; the movement-analysis stages do
degrade: an empty point list yields zero segments and a summary whose
counts and totals are zero and whose optional statistics are all null, with
no error. -/
theorem C8_empty_degradation :
    (∀ (dbscan : List (ℚ × ℚ) → List ℤ) (hav : Hav),
      clusterMain dbscan hav [] = Except.error "Input file is empty.") ∧
    (∀ (dbscan : List (ℚ × ℚ) → List ℤ) (hav : Hav) (data : List RawObs),
      data ≠ [] → data.filter hasCoords = [] →
      clusterMain dbscan hav data = Except.error "No valid GPS coordinates found.") ∧
    (∀ hav : Hav, compute_point_to_point_movements hav [] = Except.ok ([], [])) ∧
    (∀ clusters : List ClusterRec,
      (compute_summary_statistics [] [] clusters).total_points = 0 ∧
      (compute_summary_statistics [] [] clusters).total_segments = 0 ∧
      (compute_summary_statistics [] [] clusters).total_distance_km = 0 ∧
      (compute_summary_statistics [] [] clusters).avg_speed_kmh = none ∧
      (compute_summary_statistics [] [] clusters).max_speed_kmh = none ∧
      (compute_summary_statistics [] [] clusters).min_speed_kmh = none ∧
      (compute_summary_statistics [] [] clusters).time_span_seconds = none ∧
      (compute_summary_statistics [] [] clusters).first_timestamp = none ∧
      (compute_summary_statistics [] [] clusters).last_timestamp = none ∧
      (∀ b : String, (compute_summary_statistics [] [] clusters).behaviour_breakdown b = 0)) := by
  refine ⟨fun dbscan hav => rfl, ?_, fun hav => rfl, ?_⟩
  · intro dbscan hav data hne hval
    simp only [clusterMain]
    rw [if_neg hne]
    simp [hval]
  · intro clusters
    refine ⟨rfl, rfl, ?_, rfl, rfl, rfl, rfl, rfl, rfl, fun b => rfl⟩
    exact pyRound_zero 4

/-- C8 witness: an input whose sole observation has no coordinates makes the
clustering script abort with its message. -/
theorem C8_witness :
    clusterMain (fun _ => []) (fun _ _ _ _ => 0) [⟨none, none, "x"⟩] =
      Except.error "No valid GPS coordinates found." := by
  exact C8_empty_degradation.2.1 (fun _ => []) (fun _ _ _ _ => 0) [⟨none, none, "x"⟩]
    (by simp) (by rfl)

theorem mem_clusterIdsOf_aux (c : ℤ) :
    ∀ (l : List (RawObs × ℤ)) (acc : List ℤ),
      (c ∈ l.foldl
        (fun ks pc => if pc.2 = -1 then ks else if pc.2 ∈ ks then ks else ks ++ [pc.2]) acc
      ↔ c ∈ acc ∨ (c ≠ -1 ∧ ∃ pc ∈ l, pc.2 = c))
  | [], acc => by simp
  | pc :: l, acc => by
    rw [List.foldl_cons]
    by_cases h1 : pc.2 = -1
    · rw [if_pos h1, mem_clusterIdsOf_aux c l acc]
      constructor
      · rintro (h | ⟨hc, p, hp, hpc⟩)
        · exact Or.inl h
        · exact Or.inr ⟨hc, p, List.mem_cons_of_mem pc hp, hpc⟩
      · rintro (h | ⟨hc, p, hp, hpc⟩)
        · exact Or.inl h
        · rcases List.mem_cons.mp hp with rfl | hp
          · exact absurd (hpc ▸ h1) hc
          · exact Or.inr ⟨hc, p, hp, hpc⟩
    · rw [if_neg h1]
      by_cases h2 : pc.2 ∈ acc
      · rw [if_pos h2, mem_clusterIdsOf_aux c l acc]
        constructor
        · rintro (h | ⟨hc, p, hp, hpc⟩)
          · exact Or.inl h
          · exact Or.inr ⟨hc, p, List.mem_cons_of_mem pc hp, hpc⟩
        · rintro (h | ⟨hc, p, hp, hpc⟩)
          · exact Or.inl h
          · rcases List.mem_cons.mp hp with rfl | hp
            · exact Or.inl (hpc ▸ h2)
            · exact Or.inr ⟨hc, p, hp, hpc⟩
      · rw [if_neg h2, mem_clusterIdsOf_aux c l (acc ++ [pc.2])]
        simp only [List.mem_append, List.mem_singleton]
        constructor
        · rintro ((h | h) | ⟨hc, p, hp, hpc⟩)
          · exact Or.inl h
          · exact Or.inr ⟨h ▸ h1, pc, List.mem_cons_self pc l, h.symm⟩
          · exact Or.inr ⟨hc, p, List.mem_cons_of_mem pc hp, hpc⟩
        · rintro (h | ⟨hc, p, hp, hpc⟩)
          · exact Or.inl (Or.inl h)
          · rcases List.mem_cons.mp hp with rfl | hp
            · exact Or.inl (Or.inr hpc.symm)
            · exact Or.inr ⟨hc, p, hp, hpc⟩

theorem nodup_clusterIdsOf_aux :
    ∀ (l : List (RawObs × ℤ)) (acc : List ℤ), acc.Nodup →
      (l.foldl
        (fun ks pc => if pc.2 = -1 then ks else if pc.2 ∈ ks then ks else ks ++ [pc.2])
        acc).Nodup
  | [], acc, h => h
  | pc :: l, acc, h => by
    rw [List.foldl_cons]
    by_cases h1 : pc.2 = -1
    · rw [if_pos h1]
      exact nodup_clusterIdsOf_aux l acc h
    · rw [if_neg h1]
      by_cases h2 : pc.2 ∈ acc
      · rw [if_pos h2]
        exact nodup_clusterIdsOf_aux l acc h
      · rw [if_neg h2]
        refine nodup_clusterIdsOf_aux l (acc ++ [pc.2]) ?_
        rw [List.nodup_append]
        exact ⟨h, List.nodup_singleton _, by simpa using h2⟩

/-- C9: for every attachment of DBSCAN labels to the valid points, the
clustered-observation output is the valid points in input order carrying
their labels; the cluster summary has exactly one record per distinct
non-noise label, whose `visits` is the number of clustered observations
carrying that label and whose centroid is the arithmetic mean of the member
coordinates rounded to 6 decimals; noise observations (label -1) appear in
no summary record but remain in the clustered output. -/
theorem C9_cluster_summary (data : List RawObs) (labels : List ℤ)
    (hlen : labels.length = (data.filter hasCoords).length) :
    (((data.filter hasCoords).zip labels).map Prod.fst = data.filter hasCoords) ∧
    (((data.filter hasCoords).zip labels).map Prod.snd = labels) ∧
    (∀ rec ∈ cluster_summary ((data.filter hasCoords).zip labels),
      rec.cluster_id ≠ -1 ∧
      rec.visits = (((data.filter hasCoords).zip labels).filter
        (fun pc => decide (pc.2 = rec.cluster_id))).length ∧
      rec.center_lat = pyRound 6
        (((((data.filter hasCoords).zip labels).filter
            (fun pc => decide (pc.2 = rec.cluster_id))).map
              (fun pc => pc.1.lat.getD 0)).sum /
          (((((data.filter hasCoords).zip labels).filter
            (fun pc => decide (pc.2 = rec.cluster_id))).length : ℚ))) ∧
      rec.center_lon = pyRound 6
        (((((data.filter hasCoords).zip labels).filter
            (fun pc => decide (pc.2 = rec.cluster_id))).map
              (fun pc => pc.1.lon.getD 0)).sum /
          (((((data.filter hasCoords).zip labels).filter
            (fun pc => decide (pc.2 = rec.cluster_id))).length : ℚ)))) ∧
    (((cluster_summary ((data.filter hasCoords).zip labels)).map
      (fun r => r.cluster_id)).Nodup) ∧
    (∀ c : ℤ, c ≠ -1 →
      ((∃ rec ∈ cluster_summary ((data.filter hasCoords).zip labels), rec.cluster_id = c) ↔
        ∃ pc ∈ (data.filter hasCoords).zip labels, pc.2 = c)) := by
  refine ⟨List.map_fst_zip _ _ (le_of_eq hlen.symm),
    List.map_snd_zip _ _ (le_of_eq hlen), ?_, ?_, ?_⟩
  · intro rec hrec
    obtain ⟨cid, hcid, rfl⟩ := List.mem_map.mp hrec
    have hcidmem := (mem_clusterIdsOf_aux cid _ []).mp hcid
    simp only [List.not_mem_nil, false_or] at hcidmem
    refine ⟨hcidmem.1, ?_, ?_, ?_⟩
    · show (membersOf _ cid).length = _
      rw [membersOf, List.length_map]
      rfl
    · show pyRound 6 _ = pyRound 6 _
      rw [membersOf, List.map_map, List.length_map]
      rfl
    · show pyRound 6 _ = pyRound 6 _
      rw [membersOf, List.map_map, List.length_map]
      rfl
  · rw [cluster_summary, List.map_map]
    have : (fun r : ClusterRec => r.cluster_id) ∘
        mkClusterRec ((data.filter hasCoords).zip labels) = id := rfl
    rw [this, List.map_id]
    exact nodup_clusterIdsOf_aux _ [] (List.nodup_nil)
  · intro c hc
    constructor
    · rintro ⟨rec, hrec, rfl⟩
      obtain ⟨cid, hcid, rfl⟩ := List.mem_map.mp hrec
      have := (mem_clusterIdsOf_aux cid _ []).mp hcid
      simp only [List.not_mem_nil, false_or] at this
      exact this.2
    · intro hex
      refine ⟨mkClusterRec _ c, List.mem_map.mpr ⟨c, ?_, rfl⟩, rfl⟩
      exact (mem_clusterIdsOf_aux c _ []).mpr (Or.inr ⟨hc, hex⟩)

/-- C9 witness: the theorem applied to one concrete point and label list. -/
theorem C9_witness :
    (([(⟨some 1, some 2, "a"⟩ : RawObs)].filter hasCoords).zip [(0 : ℤ)]).map Prod.fst =
      [(⟨some 1, some 2, "a"⟩ : RawObs)].filter hasCoords := by
  exact (C9_cluster_summary [⟨some 1, some 2, "a"⟩] [0] (by rfl)).1

theorem corridorTripCount_aux (k : ℤ × ℤ) :
    ∀ (l : List Segment) (n : ℕ),
      l.foldl (fun n s => if validCorridorKey s = some k then n + 1 else n) n =
        n + (l.filter (fun s => decide (validCorridorKey s = some k))).length
  | [], n => by simp
  | s :: l, n => by
    rw [List.foldl_cons, List.filter_cons]
    by_cases h : validCorridorKey s = some k
    · rw [if_pos h, corridorTripCount_aux k l (n + 1)]
      simp [h]
      omega
    · rw [if_neg h, corridorTripCount_aux k l n]
      simp [h]

theorem corridorDistances_aux (k : ℤ × ℤ) :
    ∀ (l : List Segment) (acc : List ℚ),
      l.foldl (fun ds s => if validCorridorKey s = some k then ds ++ [s.distance_km] else ds)
          acc =
        acc ++ (l.filter (fun s => decide (validCorridorKey s = some k))).map
          (fun s => s.distance_km)
  | [], acc => by simp
  | s :: l, acc => by
    rw [List.foldl_cons, List.filter_cons]
    by_cases h : validCorridorKey s = some k
    · rw [if_pos h, corridorDistances_aux k l (acc ++ [s.distance_km])]
      simp [h]
    · rw [if_neg h, corridorDistances_aux k l acc]
      simp [h]

theorem mem_corridorKeys_aux (k : ℤ × ℤ) :
    ∀ (l : List Segment) (acc : List (ℤ × ℤ)),
      (k ∈ l.foldl
        (fun ks s => match validCorridorKey s with
          | some k2 => if k2 ∈ ks then ks else ks ++ [k2]
          | none => ks) acc
      ↔ k ∈ acc ∨ ∃ s ∈ l, validCorridorKey s = some k)
  | [], acc => by simp
  | s :: l, acc => by
    rw [List.foldl_cons]
    rcases hs : validCorridorKey s with _ | k2
    · simp only [hs]
      rw [mem_corridorKeys_aux k l acc]
      constructor
      · rintro (h | ⟨s2, hs2, hk2⟩)
        · exact Or.inl h
        · exact Or.inr ⟨s2, List.mem_cons_of_mem s hs2, hk2⟩
      · rintro (h | ⟨s2, hs2, hk2⟩)
        · exact Or.inl h
        · rcases List.mem_cons.mp hs2 with rfl | hs2
          · exact absurd (hs ▸ hk2) (by simp)
          · exact Or.inr ⟨s2, hs2, hk2⟩
    · simp only [hs]
      by_cases h2 : k2 ∈ acc
      · rw [if_pos h2, mem_corridorKeys_aux k l acc]
        constructor
        · rintro (h | ⟨s2, hs2, hk2⟩)
          · exact Or.inl h
          · exact Or.inr ⟨s2, List.mem_cons_of_mem s hs2, hk2⟩
        · rintro (h | ⟨s2, hs2, hk2⟩)
          · exact Or.inl h
          · rcases List.mem_cons.mp hs2 with rfl | hs2
            · have hkk : k2 = k := Option.some.inj (hs.symm.trans hk2)
              exact Or.inl (hkk ▸ h2)
            · exact Or.inr ⟨s2, hs2, hk2⟩
      · rw [if_neg h2, mem_corridorKeys_aux k l (acc ++ [k2])]
        simp only [List.mem_append, List.mem_singleton]
        constructor
        · rintro ((h | h) | ⟨s2, hs2, hk2⟩)
          · exact Or.inl h
          · exact Or.inr ⟨s, List.mem_cons_self s l, h ▸ hs⟩
          · exact Or.inr ⟨s2, List.mem_cons_of_mem s hs2, hk2⟩
        · rintro (h | ⟨s2, hs2, hk2⟩)
          · exact Or.inl (Or.inl h)
          · rcases List.mem_cons.mp hs2 with rfl | hs2
            · exact Or.inl (Or.inr (Option.some.inj (hs.symm.trans hk2)).symm)
            · exact Or.inr ⟨s2, hs2, hk2⟩

theorem nodup_corridorKeys_aux :
    ∀ (l : List Segment) (acc : List (ℤ × ℤ)), acc.Nodup →
      (l.foldl
        (fun ks s => match validCorridorKey s with
          | some k2 => if k2 ∈ ks then ks else ks ++ [k2]
          | none => ks) acc).Nodup
  | [], _, h => h
  | s :: l, acc, h => by
    rw [List.foldl_cons]
    rcases hs : validCorridorKey s with _ | k2
    · simp only [hs]
      exact nodup_corridorKeys_aux l acc h
    · simp only [hs]
      by_cases h2 : k2 ∈ acc
      · rw [if_pos h2]
        exact nodup_corridorKeys_aux l acc h
      · rw [if_neg h2]
        refine nodup_corridorKeys_aux l (acc ++ [k2]) ?_
        rw [List.nodup_append]
        exact ⟨h, List.nodup_singleton _, by simpa using h2⟩

/-- C6: `analyse_movement_corridors` emits one record per directed pair of
distinct, valid (non-null, non-noise) endpoint cluster ids occurring among
the segments; each record's trip count is the number of matching segments
and its distance statistics are the average, minimum and maximum of the
matching segments' distances; the output is sorted by descending trip
count. -/
theorem C6_corridors (segs : List Segment) :
    List.Sorted (fun r1 r2 : CorridorRecord => r2.trip_count ≤ r1.trip_count)
      (analyse_movement_corridors segs) ∧
    ((analyse_movement_corridors segs).map (fun r => r.corridor)).Nodup ∧
    (∀ k : ℤ × ℤ,
      (∃ r ∈ analyse_movement_corridors segs, r.corridor = k) ↔
        ∃ s ∈ segs, validCorridorKey s = some k) ∧
    (∀ (s : Segment) (k : ℤ × ℤ), validCorridorKey s = some k ↔
      (s.from_point.cluster_id = some k.1 ∧ s.to_point.cluster_id = some k.2 ∧
        k.1 ≠ -1 ∧ k.2 ≠ -1 ∧ k.1 ≠ k.2)) ∧
    (∀ r ∈ analyse_movement_corridors segs,
      r.trip_count =
        (segs.filter (fun s => decide (validCorridorKey s = some r.corridor))).length ∧
      r.avg_distance_km = pyRound 4
        ((((segs.filter (fun s => decide (validCorridorKey s = some r.corridor))).map
          (fun s => s.distance_km)).sum) /
          (((segs.filter (fun s => decide (validCorridorKey s = some r.corridor))).length : ℚ))) ∧
      r.min_distance_km = pyRound 4 ((listMinQ
        ((segs.filter (fun s => decide (validCorridorKey s = some r.corridor))).map
          (fun s => s.distance_km))).getD 0) ∧
      r.max_distance_km = pyRound 4 ((listMaxQ
        ((segs.filter (fun s => decide (validCorridorKey s = some r.corridor))).map
          (fun s => s.distance_km))).getD 0)) := by
  have hkeys : ∀ k : ℤ × ℤ, k ∈ corridorKeys segs ↔ ∃ s ∈ segs, validCorridorKey s = some k := by
    intro k
    rw [corridorKeys, mem_corridorKeys_aux k segs []]
    simp
  have htrip : ∀ k : ℤ × ℤ, corridorTripCount segs k =
      (segs.filter (fun s => decide (validCorridorKey s = some k))).length := by
    intro k
    rw [corridorTripCount, corridorTripCount_aux k segs 0]
    omega
  have hdist : ∀ k : ℤ × ℤ, corridorDistances segs k =
      (segs.filter (fun s => decide (validCorridorKey s = some k))).map
        (fun s => s.distance_km) := by
    intro k
    rw [corridorDistances, corridorDistances_aux k segs []]
    simp
  refine ⟨?_, ?_, ?_, ?_, ?_⟩
  · rw [analyse_movement_corridors, List.Sorted, List.pairwise_map]
    exact (List.sorted_insertionSort (corridorGE segs) (corridorKeys segs)).imp
      (fun h => h)
  · rw [analyse_movement_corridors, List.map_map]
    have hcomp : ((fun r : CorridorRecord => r.corridor) ∘ mkCorridorRecord segs) = id := rfl
    rw [hcomp, List.map_id]
    exact (List.perm_insertionSort (corridorGE segs) (corridorKeys segs)).symm.nodup
      (nodup_corridorKeys_aux segs [] List.nodup_nil)
  · intro k
    rw [← hkeys k]
    constructor
    · rintro ⟨r, hr, rfl⟩
      obtain ⟨k2, hk2, rfl⟩ := List.mem_map.mp hr
      have : k2 ∈ corridorKeys segs :=
        (List.perm_insertionSort (corridorGE segs) (corridorKeys segs)).mem_iff.mp hk2
      exact this
    · intro hk
      refine ⟨mkCorridorRecord segs k, List.mem_map.mpr ⟨k, ?_, rfl⟩, rfl⟩
      exact (List.perm_insertionSort (corridorGE segs) (corridorKeys segs)).mem_iff.mpr hk
  · intro s k
    obtain ⟨k1, k2⟩ := k
    rcases hf : s.from_point.cluster_id with _ | cf <;>
      rcases ht : s.to_point.cluster_id with _ | ct <;>
        simp only [validCorridorKey, hf, ht]
    · simp
    · simp
    · simp
    · split_ifs with hcond

      · simp only [Option.some.injEq, Prod.mk.injEq]
        constructor
        · rintro ⟨rfl, rfl⟩
          exact ⟨rfl, rfl, hcond.1, hcond.2.1, hcond.2.2⟩
        · rintro ⟨h1, h2, -, -, -⟩
          exact ⟨h1, h2⟩
      · constructor
        · rintro h
          exact absurd h (by simp)
        · rintro ⟨h1, h2, h3, h4, h5⟩
          exfalso
          have e1 : cf = k1 := Option.some.inj h1
          have e2 : ct = k2 := Option.some.inj h2
          exact hcond ⟨e1 ▸ h3, e2 ▸ h4, by rw [e1, e2]; exact h5⟩
  · intro r hr
    obtain ⟨k, hk, rfl⟩ := List.mem_map.mp hr
    simp only [show (mkCorridorRecord segs k).corridor = k from rfl]
    refine ⟨htrip k, ?_, ?_, ?_⟩
    · show pyRound 4 _ = pyRound 4 _
      rw [hdist k, List.length_map]
    · show pyRound 4 _ = pyRound 4 _
      rw [hdist k]
    · show pyRound 4 _ = pyRound 4 _
      rw [hdist k]

theorem findSome_eq_none_iff {α β : Type} (f : α → Option β) :
    ∀ l : List α, l.findSome? f = none ↔ ∀ a ∈ l, f a = none
  | [] => by simp
  | x :: l => by
    rw [List.findSome?_cons]
    rcases hx : f x with _ | c
    · rw [findSome_eq_none_iff f l]
      constructor
      · intro h a ha
        rcases List.mem_cons.mp ha with rfl | ha2
        · exact hx
        · exact h a ha2
      · intro h a ha
        exact h a (List.mem_cons_of_mem x ha)
    · constructor
      · intro h
        exact absurd h (by simp)
      · intro h
        exact absurd (h x (List.mem_cons_self x l)) (by simp [hx])

theorem findSome_eq_some_iff {α β : Type} (f : α → Option β) :
    ∀ (l : List α) (b : β),
      l.findSome? f = some b ↔
        ∃ l1 a l2, l = l1 ++ a :: l2 ∧ f a = some b ∧ ∀ x ∈ l1, f x = none
  | [], b => by
    simp only [List.findSome?_nil]
    constructor
    · intro h
      exact absurd h (by simp)
    · rintro ⟨l1, a, l2, h, -, -⟩
      exact absurd h.symm (List.append_ne_nil_of_right_ne_nil l1 (List.cons_ne_nil a l2))
  | x :: l, b => by
    rw [List.findSome?_cons]
    rcases hx : f x with _ | c
    · rw [findSome_eq_some_iff f l b]
      constructor
      · rintro ⟨l1, a, l2, rfl, hfa, hnone⟩
        refine ⟨x :: l1, a, l2, rfl, hfa, ?_⟩
        intro y hy
        rcases List.mem_cons.mp hy with rfl | hy2
        · exact hx
        · exact hnone y hy2
      · rintro ⟨l1, a, l2, heq, hfa, hnone⟩
        rcases l1 with _ | ⟨y, l1⟩
        · rw [List.nil_append] at heq
          obtain ⟨rfl, rfl⟩ := (List.cons.injEq _ _ _ _).mp heq
          exact absurd (hx.symm.trans hfa) (by simp)
        · obtain ⟨rfl, rfl⟩ := (List.cons.injEq _ _ _ _).mp heq
          exact ⟨l1, a, l2, rfl, hfa, fun y2 hy2 => hnone y2 (List.mem_cons_of_mem _ hy2)⟩
    · show some c = some b ↔ _
      constructor
      · intro h
        refine ⟨[], x, l, rfl, ?_, by simp⟩
        rw [hx]
        exact h
      · rintro ⟨l1, a, l2, heq, hfa, hnone⟩
        rcases l1 with _ | ⟨y, l1⟩
        · rw [List.nil_append] at heq
          obtain ⟨rfl, rfl⟩ := (List.cons.injEq _ _ _ _).mp heq
          exact hx.symm.trans hfa
        · obtain ⟨rfl, rfl⟩ := (List.cons.injEq _ _ _ _).mp heq
          exact absurd (hnone x (List.mem_cons_self x l1)) (by simp [hx])

/-- C7: `parse_timestamp` returns `none` on a null input; on a string it
returns the result of the first format pattern in the fixed ordered list
that parses successfully (all earlier patterns failing), and `none` exactly
when every pattern fails; being a total function into `Option`, it never
raises to the caller. -/
theorem C7_parse_timestamp :
    parse_timestamp none = none ∧
    (∀ s : String,
      (parse_timestamp (some s) = none ↔ ∀ fmt ∈ formats, strptime fmt s = none)) ∧
    (∀ (s : String) (d : DateTime),
      (parse_timestamp (some s) = some d ↔
        ∃ l1 fmt l2, formats = l1 ++ fmt :: l2 ∧ strptime fmt s = some d ∧
          ∀ f2 ∈ l1, strptime f2 s = none)) := by
  refine ⟨rfl, ?_, ?_⟩
  · intro s
    exact findSome_eq_none_iff (fun fmt => strptime fmt s) formats
  · intro s d
    exact findSome_eq_some_iff (fun fmt => strptime fmt s) formats d

/-- C7 witness: the theorem applied at a concrete unparseable string,
yielding the failure of the first (EXIF) pattern. -/
theorem C7_witness : strptime FMT_EXIF "not a timestamp" = none := by
  exact (C7_parse_timestamp.2.1 "not a timestamp").mp (by decide) FMT_EXIF
    (by simp [formats])

theorem visitSpansFrom_head (t : Time) :
    ∀ l : List Time, ∃ b tl, visitSpansFrom t l = (t, b) :: tl
  | [] => ⟨t, [], rfl⟩
  | u :: rest => by
    by_cases h : 3600 < u - t
    · exact ⟨t, visitSpansFrom u rest, by rw [visitSpansFrom, if_pos h]⟩
    · obtain ⟨b, tl, hb⟩ := visitSpansFrom_head u rest
      refine ⟨b, tl, ?_⟩
      rw [visitSpansFrom, if_neg h, hb]

theorem dwellLoop_spec :
    ∀ (l : List Time) (start last : Time) (total : ℤ) (visits : ℕ),
      dwellLoop start last total visits l =
        (total + spanSum (replaceStart start (visitSpansFrom last l)),
         visits + ((visitSpansFrom last l).length - 1))
  | [], start, last, total, visits => by
    simp [dwellLoop, visitSpansFrom, replaceStart, spanSum]
  | u :: rest, start, last, total, visits => by
    obtain ⟨b, tl, hb⟩ := visitSpansFrom_head u rest
    by_cases h : 3600 < u - last
    · rw [show dwellLoop start last total visits (u :: rest) =
          (if 3600 < u - last then dwellLoop u u (total + (last - start)) (visits + 1) rest
           else dwellLoop start u total visits rest) from rfl,
        if_pos h, dwellLoop_spec rest u u (total + (last - start)) (visits + 1), hb]
      rw [show visitSpansFrom last (u :: rest) =
          (if 3600 < u - last then (last, last) :: visitSpansFrom u rest
           else
            match visitSpansFrom u rest with
            | [] => [(last, last)]
            | ab :: tl2 => (last, ab.2) :: tl2) from rfl,
        if_pos h, hb]
      simp only [replaceStart, spanSum, List.map_cons, List.sum_cons, List.length_cons,
        Prod.mk.injEq]
      constructor
      · ring
      · omega
    · rw [show dwellLoop start last total visits (u :: rest) =
          (if 3600 < u - last then dwellLoop u u (total + (last - start)) (visits + 1) rest
           else dwellLoop start u total visits rest) from rfl,
        if_neg h, dwellLoop_spec rest start u total visits, hb]
      rw [show visitSpansFrom last (u :: rest) =
          (if 3600 < u - last then (last, last) :: visitSpansFrom u rest
           else
            match visitSpansFrom u rest with
            | [] => [(last, last)]
            | ab :: tl2 => (last, ab.2) :: tl2) from rfl,
        if_neg h, hb]
      simp [replaceStart, spanSum]

theorem sorted_le_getLast :
    ∀ (l : List Time) (h : l ≠ []), List.Sorted (fun a b : Time => a ≤ b) l →
      ∀ x ∈ l, x ≤ l.getLast h
  | [], h, _, _, _ => absurd rfl h
  | [t], _, _, x, hx => by
    rw [List.mem_singleton.mp hx]
    exact le_refl _
  | t :: u :: rest, _, hsort, x, hx => by
    rw [List.getLast_cons (List.cons_ne_nil u rest)]
    rcases List.mem_cons.mp hx with rfl | hx2
    · exact List.rel_of_sorted_cons hsort _ (List.getLast_mem (List.cons_ne_nil u rest))
    · exact sorted_le_getLast (u :: rest) (List.cons_ne_nil u rest) hsort.of_cons x hx2

/-- C5 counterexample: a cluster whose two parsed timestamps are one
offset-naive and one offset-aware makes `analyse_dwell_times` raise
`TypeError` (at `timestamps.sort()` line 295), so it reports no dwell
aggregates on this input; the claim, quantified over every input, fails
here. -/
theorem C5_counterexample :
    analyse_dwell_times
      [⟨0, 0, some ⟨0, false⟩, some 1, "a"⟩, ⟨0, 0, some ⟨10, true⟩, some 1, "b"⟩] 1 =
      Except.error "TypeError: cannot compare offset-naive and offset-aware datetimes" := rfl

/-- C5 (amended): when some non-noise cluster collects both an offset-aware
and an offset-naive parsed timestamp, `analyse_dwell_times` raises
`TypeError` and reports nothing; otherwise, per non-noise cluster id, it
aggregates exactly the observations carrying that id with a parsed
timestamp; on the sorted timestamps it reports the visit decomposition cut
at gaps above 3600 seconds: `total_dwell_seconds` is the sum of the visit
spans (first to last timestamp of each visit), `visit_count` the number of
visits, `point_count` the number of contributing observations, and
`first_seen`/`last_seen` the minimal and maximal timestamp. -/
theorem C5_dwell_times (pts : List ObsIn) (cid : ℤ) (hcid : cid ≠ -1) :
    (dwellRaises pts = true → analyse_dwell_times pts cid =
      Except.error "TypeError: cannot compare offset-naive and offset-aware datetimes") ∧
    (dwellRaises pts = false →
      (analyse_dwell_times pts cid = Except.ok none ↔ clusterTimestamps pts cid = []) ∧
      (∀ rec : DwellRecord, analyse_dwell_times pts cid = Except.ok (some rec) →
        rec.cluster_id = cid ∧
        rec.point_count = (clusterTimestamps pts cid).length ∧
        (∀ t ∈ clusterTimestamps pts cid, rec.first_seen ≤ t ∧ t ≤ rec.last_seen) ∧
        rec.first_seen ∈ clusterTimestamps pts cid ∧
        rec.last_seen ∈ clusterTimestamps pts cid ∧
        (∃ l : List Time, l.Perm (clusterTimestamps pts cid) ∧
          List.Sorted (fun a b : Time => a ≤ b) l ∧
          rec.total_dwell_seconds = spanSum (visitSpans l) ∧
          rec.visit_count = (visitSpans l).length))) := by
  constructor
  · intro hr
    rw [analyse_dwell_times, if_pos hr]
  · intro hr
    have hnr : ¬ (dwellRaises pts = true) := by simp [hr]
    have hperm := List.perm_insertionSort (fun a b : Time => a ≤ b) (clusterTimestamps pts cid)
    have hsort := List.sorted_insertionSort (fun a b : Time => a ≤ b) (clusterTimestamps pts cid)
    rcases hs : List.insertionSort (fun a b : Time => a ≤ b) (clusterTimestamps pts cid) with
      _ | ⟨t0, rest⟩
    · rw [hs] at hperm
      have hnil : clusterTimestamps pts cid = [] :=
        List.eq_nil_of_length_eq_zero (hperm.length_eq.symm)
      constructor
      · rw [analyse_dwell_times, if_neg hnr, if_neg hcid, hs]
        simp [hnil]
      · intro rec h
        rw [analyse_dwell_times, if_neg hnr, if_neg hcid, hs] at h
        exact absurd h (by simp)
    · rw [hs] at hperm hsort
      have hne : clusterTimestamps pts cid ≠ [] := by
        intro hnil
        rw [hnil] at hperm
        simpa using hperm.length_eq
      constructor
      · rw [analyse_dwell_times, if_neg hnr, if_neg hcid, hs]
        exact iff_of_false (by simp) hne
      · intro rec h
        rw [analyse_dwell_times, if_neg hnr, if_neg hcid, hs] at h
        have hrec := (Option.some.inj (Except.ok.inj h)).symm
        subst hrec
        obtain ⟨b, tl, hb⟩ := visitSpansFrom_head t0 rest
        refine ⟨rfl, hperm.length_eq, ?_, ?_, ?_, ⟨t0 :: rest, hperm, hsort, ?_, ?_⟩⟩
        · intro t ht
          have ht2 : t ∈ t0 :: rest := hperm.mem_iff.mpr ht
          constructor
          · show t0 ≤ t
            rcases List.mem_cons.mp ht2 with rfl | ht3
            · exact le_refl t
            · exact List.rel_of_sorted_cons hsort _ ht3
          · exact sorted_le_getLast (t0 :: rest) (List.cons_ne_nil t0 rest) hsort t ht2
        · exact hperm.mem_iff.mp (List.mem_cons_self t0 rest)
        · exact hperm.mem_iff.mp (List.getLast_mem (List.cons_ne_nil t0 rest))
        · show (dwellLoop t0 t0 0 1 rest).1 = spanSum (visitSpansFrom t0 rest)
          rw [dwellLoop_spec rest t0 t0 0 1, hb]
          simp [replaceStart]
        · show (dwellLoop t0 t0 0 1 rest).2 = (visitSpansFrom t0 rest).length
          rw [dwellLoop_spec rest t0 t0 0 1, hb]
          simp only [List.length_cons]
          omega

/-- C5 witness: the amended theorem applied to a concrete two-point cluster
(all naive, no raise) whose timestamps are 5000 seconds apart, hence two
visits. -/
theorem C5_witness :
    (⟨1, 0, 2, 2, 0, 5000⟩ : DwellRecord).cluster_id = 1 ∧
    (⟨1, 0, 2, 2, 0, 5000⟩ : DwellRecord).point_count =
      (clusterTimestamps
        [⟨0, 0, some ⟨0, false⟩, some 1, "a"⟩, ⟨0, 0, some ⟨5000, false⟩, some 1, "b"⟩] 1).length := by
  have h := ((C5_dwell_times
    [⟨0, 0, some ⟨0, false⟩, some 1, "a"⟩, ⟨0, 0, some ⟨5000, false⟩, some 1, "b"⟩] 1
    (by decide)).2 (by decide)).2
    ⟨1, 0, 2, 2, 0, 5000⟩ (by rfl)
  exact ⟨h.1, h.2.1⟩

/-- C6 witness: the theorem applied to the one record of a concrete
one-segment run, whose hypothesis (record membership) is discharged by
computing the corridor list. -/
theorem C6_witness :
    (mkCorridorRecord
      [mkSegment (fun _ _ _ _ => 1) ⟨0, 0, some ⟨0, false⟩, some 1, "a"⟩ ⟨2, 2, some ⟨10, false⟩, some 2, "b"⟩]
      (1, 2)).trip_count =
    (([mkSegment (fun _ _ _ _ => 1) ⟨0, 0, some ⟨0, false⟩, some 1, "a"⟩
        ⟨2, 2, some ⟨10, false⟩, some 2, "b"⟩]).filter
      (fun s => decide (validCorridorKey s = some (mkCorridorRecord
        [mkSegment (fun _ _ _ _ => 1) ⟨0, 0, some ⟨0, false⟩, some 1, "a"⟩
          ⟨2, 2, some ⟨10, false⟩, some 2, "b"⟩] (1, 2)).corridor))).length := by
  refine ((C6_corridors
    [mkSegment (fun _ _ _ _ => 1) ⟨0, 0, some ⟨0, false⟩, some 1, "a"⟩
      ⟨2, 2, some ⟨10, false⟩, some 2, "b"⟩]).2.2.2.2 _ ?_).1
  rw [show analyse_movement_corridors
      [mkSegment (fun _ _ _ _ => 1) ⟨0, 0, some ⟨0, false⟩, some 1, "a"⟩ ⟨2, 2, some ⟨10, false⟩, some 2, "b"⟩]
    = [mkCorridorRecord
      [mkSegment (fun _ _ _ _ => 1) ⟨0, 0, some ⟨0, false⟩, some 1, "a"⟩ ⟨2, 2, some ⟨10, false⟩, some 2, "b"⟩]
      (1, 2)] from rfl]
  exact List.mem_singleton.mpr rfl

end GeoTrace
